import Mathlib

/-!
# Verification development for `src/js/main.js`

The script wires three behaviours into a page: a mobile menu toggle, the
active navigation link marker (`markActiveNav`) and the contact form submit
handler.  This file embeds the last two in Lean and proves properties of them.

JavaScript strings are sequences of UTF-16 code units; `String.prototype.trim`,
`.length`, `split` and a regular expression without the `u` flag all work on
code units, so a string is modelled as a list of code units.
-/

namespace Main

/-! ## Strings -/

/-- A UTF-16 code unit. -/
abbrev CodeUnit := Nat

/-- A JavaScript string: its sequence of UTF-16 code units. -/
abbrev JSString := List CodeUnit

/-- UTF-16 code units of one Unicode scalar value. -/
def encodeChar (c : Char) : List CodeUnit :=
  if c.toNat < 0x10000 then [c.toNat]
  else [0xD800 + (c.toNat - 0x10000) / 0x400, 0xDC00 + (c.toNat - 0x10000) % 0x400]

/-- The JavaScript string denoted by a string literal of the source. -/
def utf16 (s : String) : JSString :=
  s.toList.flatMap encodeChar

/-- ECMAScript `WhiteSpace` and `LineTerminator` code points: the characters
removed by `trim()` and matched by the class escape `\s`. -/
def isWhiteSpace (c : CodeUnit) : Bool :=
  c == 0x09 || c == 0x0A || c == 0x0B || c == 0x0C || c == 0x0D || c == 0x20 ||
  c == 0xA0 || c == 0x1680 || (0x2000 ≤ c && c ≤ 0x200A) || c == 0x2028 ||
  c == 0x2029 || c == 0x202F || c == 0x205F || c == 0x3000 || c == 0xFEFF

/-- The method `String.prototype.trimStart`. -/
def trimStart (s : JSString) : JSString :=
  s.dropWhile isWhiteSpace

/-- The method `String.prototype.trim`: white space removed at both ends. -/
def trim (s : JSString) : JSString :=
  (trimStart (trimStart s).reverse).reverse

/-! ## The regular expression of line 26

A pattern is a sequence of terms; the matcher is the backtracking matcher of
the language specification, written with continuations: a greedy `+` first
tries to consume one more character and falls back to the rest of the
pattern. -/

/-- A member of a character class. -/
inductive ClassItem where
  /-- the class escape `\s` -/
  | space
  /-- a single character -/
  | lit (c : CodeUnit)
  deriving DecidableEq, Repr

/-- An atom matches exactly one code unit. -/
inductive Atom where
  /-- a pattern character, possibly escaped, such as `@` or `\.` -/
  | char (c : CodeUnit)
  /-- a negated class `[^...]` -/
  | notIn (items : List ClassItem)
  deriving DecidableEq, Repr

/-- A term of a pattern. -/
inductive Term where
  /-- the assertion `^` -/
  | bol
  /-- the assertion `$` -/
  | eol
  /-- an atom without quantifier -/
  | one (a : Atom)
  /-- an atom under the greedy quantifier `+` -/
  | plus (a : Atom)
  deriving DecidableEq, Repr

/-- Whether a class member contains the code unit. -/
def ClassItem.has : ClassItem → CodeUnit → Bool
  | .space, c => isWhiteSpace c
  | .lit d, c => c == d

/-- Whether the atom matches the code unit. -/
def Atom.accepts : Atom → CodeUnit → Bool
  | .char d, c => c == d
  | .notIn items, c => !(items.any fun i => i.has c)

/-- Greedy `a+` followed by the continuation `k`. -/
def plusLoop (a : Atom) (k : JSString → Bool) : JSString → Bool
  | [] => false
  | c :: s => a.accepts c && (plusLoop a k s || k s)

/-- Match the terms at the current position; `atStart` says whether the
position is index 0 of the input and the list is the input from the position
on.  The match succeeds as soon as the terms are exhausted. -/
def matchTerms : List Term → Bool → JSString → Bool
  | [], _, _ => true
  | .bol :: ts, atStart, s => atStart && matchTerms ts atStart s
  | .eol :: ts, atStart, s => s.isEmpty && matchTerms ts atStart s
  | .one a :: ts, _, s =>
    match s with
    | [] => false
    | c :: s1 => a.accepts c && matchTerms ts false s1
  | .plus a :: ts, _, s => plusLoop a (matchTerms ts false) s

/-- The search of `RegExp.prototype.exec` for a pattern without flags: try a
match at every index from 0 to the length of the input. -/
def searchFrom (ts : List Term) : Bool → JSString → Bool
  | atStart, [] => matchTerms ts atStart []
  | atStart, c :: s => matchTerms ts atStart (c :: s) || searchFrom ts false s

/-- The method `RegExp.prototype.test`. -/
def test (ts : List Term) (s : JSString) : Bool :=
  searchFrom ts true s

/-- The class `[^\s@]`. -/
def notSpaceNotAt : Atom :=
  .notIn [.space, .lit 0x40]

/-- The literal `/^[^\s@]+@[^\s@]+\.[^\s@]+$/`. -/
def emailRegex : List Term :=
  [.bol, .plus notSpaceNotAt, .one (.char 0x40), .plus notSpaceNotAt,
   .one (.char 0x2E), .plus notSpaceNotAt, .eol]

/-- The value of `emailOk` for a trimmed email. -/
def emailOk (email : JSString) : Bool :=
  test emailRegex email

/-! ## Values of a parsed response

`response.json()` yields the value that `JSON.parse` builds from the body: a
primitive, an array, or an object whose members are own data properties.  -/

/-- A JavaScript value as the handler can see it.  A number is kept as the two
observations the script can make of it: whether it is zero (its truthiness)
and the text it converts to. -/
inductive JSValue where
  | undefined
  | null
  | bool (b : Bool)
  | num (isZero : Bool) (text : JSString)
  | str (s : JSString)
  /-- an array and its elements -/
  | arr (items : List JSValue)
  /-- an object and its members in source order; of two members with the same
  key the later one is the property -/
  | obj (members : List (JSString × JSValue))

/-- Outcome of the two awaited steps of lines 34 to 39. -/
inductive Exchange where
  /-- the promise of `fetch` rejects -/
  | fetchRejected
  /-- `response.json()` rejects: the body is not JSON -/
  | jsonRejected
  /-- `response.json()` resolves with the parsed value -/
  | parsed (result : JSValue)

/-- The property read `v.key` for a key that no built-in prototype defines
(`success`, `message`).  `none` stands for the `TypeError` of reading a
property of `null` or `undefined`. -/
def getProp : JSValue → JSString → Option JSValue
  | .undefined, _ => none
  | .null, _ => none
  | .obj members, key =>
    match members.reverse.find? (fun m => m.1 == key) with
    | some m => some m.2
    | none => some .undefined
  | _, _ => some .undefined

/-- The conversion `ToBoolean`, as applied by `if (result.success)`. -/
def truthy : JSValue → Bool
  | .undefined => false
  | .null => false
  | .bool b => b
  | .num isZero _ => !isZero
  | .str s => !s.isEmpty
  | .arr _ => true
  | .obj _ => true

/-- Whether the value is `null` or `undefined`. -/
def isNullish : JSValue → Bool
  | .undefined => true
  | .null => true
  | _ => false

mutual
/-- The string that `"..." + v` appends for `v`; `none` stands for the
`TypeError` of an object that cannot be converted to a primitive.  A parsed
object inherits `Object.prototype.toString` unless it has a member named
`toString`, whose value is never callable; an array converts through
`Array.prototype.join`. -/
def toStr : JSValue → Option JSString
  | .undefined => some (utf16 "undefined")
  | .null => some (utf16 "null")
  | .bool true => some (utf16 "true")
  | .bool false => some (utf16 "false")
  | .num _ text => some text
  | .str s => some s
  | .arr items => joinItems items
  | .obj members =>
    if members.any (fun m => m.1 == utf16 "toString") then none
    else some (utf16 "[object Object]")
termination_by structural v => v
/-- The method `Array.prototype.join` with the separator `,`: an element that is `null`
or `undefined` contributes the empty string. -/
def joinItems : List JSValue → Option JSString
  | [] => some []
  | v :: vs =>
    match (if isNullish v then some [] else toStr v), vs, joinItems vs with
    | some a, [], _ => some a
    | some a, _ :: _, some b => some (a ++ utf16 "," ++ b)
    | _, _, _ => none
termination_by structural vs => vs
end

/-! ## The page -/

/-- A form control: its current value and the default value of the markup. -/
structure Field where
  value : JSString
  defaultValue : JSString
  deriving DecidableEq, Repr

/-- The form `#contactForm` with its controls `name`, `email`, `message`. -/
structure Form where
  name : Field
  email : Field
  message : Field
  deriving DecidableEq, Repr

/-- The element `#formAlert`. -/
structure AlertBox where
  textContent : JSString
  className : JSString
  deriving DecidableEq, Repr

/-- The object `{ name, email, message }` given to `JSON.stringify`. -/
structure Payload where
  name : JSString
  email : JSString
  message : JSString
  deriving DecidableEq, Repr

/-- The arguments of a call of `fetch`. -/
structure Request where
  url : JSString
  method : JSString
  headers : List (JSString × JSString)
  body : Payload
  deriving DecidableEq, Repr

/-- The page as the handler sees and changes it, with the calls of `fetch`
and of `showAlert` made so far. -/
structure World where
  form : Form
  alertBox : AlertBox
  requests : List Request
  alerts : List (JSString × JSString)
  deriving DecidableEq, Repr

/-- The function `showAlert(msg, type)` of lines 52 to 55. -/
def showAlert (msg type : JSString) (w : World) : World :=
  { w with
    alertBox := { textContent := msg, className := utf16 "alert show " ++ type }
    alerts := w.alerts ++ [(msg, type)] }

/-- The method `HTMLFormElement.reset`: every control goes back to its default
value. -/
def Form.reset (f : Form) : Form :=
  { name := { f.name with value := f.name.defaultValue }
    email := { f.email with value := f.email.defaultValue }
    message := { f.message with value := f.message.defaultValue } }

/-- The call of `fetch` of lines 34 to 38. -/
def postRequest (name email message : JSString) : Request :=
  { url := utf16 "http://localhost:5000/inscription"
    method := utf16 "POST"
    headers := [(utf16 "Content-Type", utf16 "application/json")]
    body := { name := name, email := email, message := message } }

/-- Lines 39 to 46 for an exchange: the body of `try` after the request has
been sent.  `none` stands for an exception, which line 47 catches; every
statement that can throw comes before the first change of the page. -/
def tryBody (x : Exchange) (w : World) : Option World :=
  match x with
  | .fetchRejected => none
  | .jsonRejected => none
  | .parsed result =>
    match getProp result (utf16 "success") with
    | none => none
    | some success =>
      if truthy success then
        match (getProp result (utf16 "message")).bind toStr with
        | none => none
        | some text =>
          let w1 := showAlert (utf16 "✅ " ++ text) (utf16 "ok") w
          some { w1 with form := w1.form.reset }
      else
        match (getProp result (utf16 "message")).bind toStr with
        | none => none
        | some text => some (showAlert (utf16 "❌ " ++ text) (utf16 "err") w)

/-- The submit handler of lines 20 to 50.  `net` is the environment: the
outcome of the exchange for the request sent. -/
def onSubmit (net : Request → Exchange) (w : World) : World :=
  let name := trim w.form.name.value
  let email := trim w.form.email.value
  let message := trim w.form.message.value
  let emailOk := emailOk email
  if name.isEmpty || email.isEmpty || message.isEmpty then
    showAlert (utf16 "Veuillez remplir tous les champs.") (utf16 "err") w
  else if !emailOk then
    showAlert (utf16 "Adresse email invalide.") (utf16 "err") w
  else if message.length < 10 then
    showAlert (utf16 "Message trop court (minimum 10 caractères).") (utf16 "err") w
  else
    let request := postRequest name email message
    let w1 := { w with requests := w.requests ++ [request] }
    match tryBody (net request) w1 with
    | some w2 => w2
    | none => showAlert (utf16 "❌ Erreur de connexion au serveur.") (utf16 "err") w1

/-! ## The active link marker -/

/-- An element matched by `.nav-links a`. -/
structure Link where
  /-- `getAttribute('href')`, `none` for `null` -/
  href : Option JSString
  classList : List JSString
  deriving DecidableEq, Repr

/-- The method `String.prototype.split` with a separator of one code unit. -/
def split (sep : CodeUnit) : JSString → List JSString
  | [] => [[]]
  | c :: s =>
    if c == sep then [] :: split sep s
    else
      match split sep s with
      | [] => [[c]]
      | seg :: segs => (c :: seg) :: segs

/-- The constant `path` of line 8 for a value of `location.pathname`. -/
def currentFile (pathname : JSString) : JSString :=
  match (split 0x2F pathname).getLast? with
  | some seg => if seg.isEmpty then utf16 "index.html" else seg
  | none => utf16 "index.html"

/-- The method `DOMTokenList.add`. -/
def classListAdd (classList : List JSString) (token : JSString) : List JSString :=
  if token ∈ classList then classList else classList ++ [token]

/-- The function `markActiveNav` of lines 7 to 13. -/
def markActiveNav (pathname : JSString) (links : List Link) : List Link :=
  let path := currentFile pathname
  links.map fun a =>
    if a.href = some path then { a with classList := classListAdd a.classList (utf16 "active") }
    else a

/-! ## Predicates used in the statements -/

/-- The strings `x@y.z` with `x`, `y`, `z` non-empty and free of white space
and of `@`. -/
def EmailShape (s : JSString) : Prop :=
  ∃ x y z : JSString, s = x ++ 0x40 :: (y ++ 0x2E :: z) ∧
    x ≠ [] ∧ y ≠ [] ∧ z ≠ [] ∧
    (∀ c ∈ x, isWhiteSpace c = false ∧ c ≠ 0x40) ∧
    (∀ c ∈ y, isWhiteSpace c = false ∧ c ≠ 0x40) ∧
    (∀ c ∈ z, isWhiteSpace c = false ∧ c ≠ 0x40)

/-- The input passes the three checks of lines 28 to 30. -/
def Valid (w : World) : Prop :=
  trim w.form.name.value ≠ [] ∧ trim w.form.email.value ≠ [] ∧
  trim w.form.message.value ≠ [] ∧ emailOk (trim w.form.email.value) = true ∧
  10 ≤ (trim w.form.message.value).length

instance (w : World) : Decidable (Valid w) := by
  unfold Valid
  infer_instance

/-- The request that the handler sends for the page. -/
def requestOf (w : World) : Request :=
  postRequest (trim w.form.name.value) (trim w.form.email.value) (trim w.form.message.value)

/-- The page once the request has been sent. -/
def afterSend (w : World) : World :=
  { w with requests := w.requests ++ [requestOf w] }

/-! ## Sample pages and responses -/

/-- A control holding the text, with no default value in the markup. -/
def sampleField (s : String) : Field :=
  { value := utf16 s, defaultValue := [] }

/-- A page with the three values typed in, an empty alert box and no call made
so far. -/
def samplePage (name email message : String) : World :=
  { form := { name := sampleField name, email := sampleField email,
              message := sampleField message }
    alertBox := { textContent := [], className := [] }
    requests := []
    alerts := [] }

/-- The parsed body `{"success": s, "message": m}`. -/
def sampleResponse (s m : JSValue) : JSValue :=
  .obj [(utf16 "success", s), (utf16 "message", m)]

/-- The parsed value `{"toString": null}`. -/
def noToString : JSValue :=
  .obj [(utf16 "toString", .null)]

/-! ## Facts about the matcher -/

theorem notSpaceNotAt_accepts (c : CodeUnit) :
    notSpaceNotAt.accepts c = true ↔ isWhiteSpace c = false ∧ c ≠ 0x40 := by
  simp [notSpaceNotAt, Atom.accepts, ClassItem.has]

theorem char_accepts (d c : CodeUnit) : (Atom.char d).accepts c = (c == d) := rfl

theorem plusLoop_eq_true (a : Atom) (k : JSString → Bool) (s : JSString) :
    plusLoop a k s = true ↔
      ∃ x y, s = x ++ y ∧ x ≠ [] ∧ (∀ c ∈ x, a.accepts c = true) ∧ k y = true := by
  induction s with
  | nil =>
    simp only [plusLoop, Bool.false_eq_true, false_iff]
    rintro ⟨x, y, h, hx, -, -⟩
    cases x with
    | nil => exact hx rfl
    | cons c x => simp at h
  | cons c s ih =>
    simp only [plusLoop, Bool.and_eq_true, Bool.or_eq_true, ih]
    constructor
    · rintro ⟨hc, ⟨x, y, rfl, hx, hall, hk⟩ | hk⟩
      · refine ⟨c :: x, y, rfl, by simp, ?_, hk⟩
        intro d hd
        rcases List.mem_cons.1 hd with rfl | hd
        · exact hc
        · exact hall d hd
      · exact ⟨[c], s, rfl, by simp, by simpa using hc, hk⟩
    · rintro ⟨x, y, h, hx, hall, hk⟩
      cases x with
      | nil => exact absurd rfl hx
      | cons d x =>
        simp only [List.cons_append, List.cons.injEq] at h
        obtain ⟨rfl, rfl⟩ := h
        refine ⟨hall c (List.mem_cons_self _ _), ?_⟩
        cases x with
        | nil => exact Or.inr (by simpa using hk)
        | cons e x =>
          exact Or.inl ⟨e :: x, y, rfl, by simp,
            fun d hd => hall d (List.mem_cons_of_mem _ hd), hk⟩

/-- A pattern that starts with `^` matches at index 0 only. -/
theorem searchFrom_bol_false (ts : List Term) (s : JSString) :
    searchFrom (.bol :: ts) false s = false := by
  induction s with
  | nil => simp [searchFrom, matchTerms]
  | cons c s ih => simp [searchFrom, matchTerms, ih]

theorem test_bol (ts : List Term) (s : JSString) :
    test (.bol :: ts) s = matchTerms ts true s := by
  cases s with
  | nil => simp [test, searchFrom, matchTerms]
  | cons c s => simp [test, searchFrom, matchTerms, searchFrom_bol_false]

theorem emailOk_iff_shape (s : JSString) : emailOk s = true ↔ EmailShape s := by
  unfold emailOk emailRegex EmailShape
  rw [test_bol]
  simp only [matchTerms, plusLoop_eq_true, notSpaceNotAt_accepts]
  constructor
  · rintro ⟨x, r, rfl, hx, hxa, hr⟩
    cases r with
    | nil => simp at hr
    | cons c r =>
      simp only [char_accepts, Bool.and_eq_true, beq_iff_eq, plusLoop_eq_true,
        notSpaceNotAt_accepts] at hr
      obtain ⟨rfl, y, r2, rfl, hy, hya, hr2⟩ := hr
      cases r2 with
      | nil => simp at hr2
      | cons d r2 =>
        simp only [char_accepts, Bool.and_eq_true, beq_iff_eq, plusLoop_eq_true,
          notSpaceNotAt_accepts, List.isEmpty_eq_true] at hr2
        obtain ⟨rfl, z, e, rfl, hz, hza, he⟩ := hr2
        have he2 : e = [] := by
          cases e with
          | nil => rfl
          | cons _ _ => simp at he
        subst he2
        exact ⟨x, y, z, by simp, hx, hy, hz, hxa, hya, hza⟩
  · rintro ⟨x, y, z, rfl, hx, hy, hz, hxa, hya, hza⟩
    refine ⟨x, 0x40 :: (y ++ 0x2E :: z), rfl, hx, hxa, ?_⟩
    simp only [char_accepts, Bool.and_eq_true, beq_iff_eq, plusLoop_eq_true,
      notSpaceNotAt_accepts, true_and]
    refine ⟨y, 0x2E :: z, rfl, hy, hya, ?_⟩
    simp only [char_accepts, Bool.and_eq_true, beq_iff_eq, plusLoop_eq_true,
      notSpaceNotAt_accepts, true_and]
    exact ⟨z, [], by simp, hz, hza, by simp⟩

/-! ## Facts about the submit handler -/

theorem onSubmit_of_empty (net : Request → Exchange) (w : World)
    (h : trim w.form.name.value = [] ∨ trim w.form.email.value = [] ∨
      trim w.form.message.value = []) :
    onSubmit net w =
      showAlert (utf16 "Veuillez remplir tous les champs.") (utf16 "err") w := by
  unfold onSubmit
  simp only []
  rw [if_pos]
  simpa [List.isEmpty_iff, or_assoc] using h

theorem onSubmit_of_badEmail (net : Request → Exchange) (w : World)
    (hn : trim w.form.name.value ≠ []) (he : trim w.form.email.value ≠ [])
    (hm : trim w.form.message.value ≠ [])
    (h : emailOk (trim w.form.email.value) = false) :
    onSubmit net w = showAlert (utf16 "Adresse email invalide.") (utf16 "err") w := by
  unfold onSubmit
  simp only []
  rw [if_neg (by simp [List.isEmpty_iff, hn, he, hm]), if_pos (by simp [h])]

theorem onSubmit_of_short (net : Request → Exchange) (w : World)
    (hn : trim w.form.name.value ≠ []) (he : trim w.form.email.value ≠ [])
    (hm : trim w.form.message.value ≠ [])
    (h : emailOk (trim w.form.email.value) = true)
    (hl : (trim w.form.message.value).length < 10) :
    onSubmit net w =
      showAlert (utf16 "Message trop court (minimum 10 caractères).") (utf16 "err") w := by
  unfold onSubmit
  simp only []
  rw [if_neg (by simp [List.isEmpty_iff, hn, he, hm]), if_neg (by simp [h]), if_pos hl]

theorem onSubmit_of_valid (net : Request → Exchange) (w : World) (hv : Valid w) :
    onSubmit net w =
      match tryBody (net (requestOf w)) (afterSend w) with
      | some w2 => w2
      | none => showAlert (utf16 "❌ Erreur de connexion au serveur.") (utf16 "err")
          (afterSend w) := by
  obtain ⟨hn, he, hm, h, hl⟩ := hv
  unfold onSubmit
  simp only []
  rw [if_neg (by simp [List.isEmpty_iff, hn, he, hm]), if_neg (by simp [h]),
    if_neg (by omega)]
  rfl

theorem tryBody_requests (x : Exchange) (w w2 : World) (h : tryBody x w = some w2) :
    w2.requests = w.requests := by
  unfold tryBody at h
  split at h
  · cases h
  · cases h
  · split at h
    · cases h
    · split at h
      · split at h
        · cases h
        · cases h; rfl
      · split at h
        · cases h
        · cases h; rfl

theorem tryBody_alerts (x : Exchange) (w w2 : World) (h : tryBody x w = some w2) :
    ∃ a, w2.alerts = w.alerts ++ [a] := by
  unfold tryBody at h
  split at h
  · cases h
  · cases h
  · split at h
    · cases h
    · split at h
      · split at h
        · cases h
        · cases h; exact ⟨_, rfl⟩
      · split at h
        · cases h
        · cases h; exact ⟨_, rfl⟩

theorem onSubmit_valid_requests (net : Request → Exchange) (w : World) (hv : Valid w) :
    (onSubmit net w).requests = w.requests ++ [requestOf w] := by
  rw [onSubmit_of_valid net w hv]
  cases hx : tryBody (net (requestOf w)) (afterSend w) with
  | none => rfl
  | some w2 => exact tryBody_requests _ _ _ hx

/-- A blocked submission: one of the three checks fails. -/
theorem onSubmit_of_not_valid (net : Request → Exchange) (w : World) (hv : ¬ Valid w) :
    ∃ msg, onSubmit net w = showAlert msg (utf16 "err") w := by
  by_cases h0 : trim w.form.name.value = [] ∨ trim w.form.email.value = [] ∨
      trim w.form.message.value = []
  · exact ⟨_, onSubmit_of_empty net w h0⟩
  · simp only [not_or] at h0
    obtain ⟨hn, he, hm⟩ := h0
    cases h : emailOk (trim w.form.email.value) with
    | false => exact ⟨_, onSubmit_of_badEmail net w hn he hm h⟩
    | true =>
      by_cases hl : (trim w.form.message.value).length < 10
      · exact ⟨_, onSubmit_of_short net w hn he hm h hl⟩
      · exact absurd ⟨hn, he, hm, h, by omega⟩ hv

/-! ## The claims about the submit handler -/

/-- C1: for every triple of raw field values the handler issues the POST
request to the endpoint (url "http://localhost:5000/inscription", method
"POST", header "Content-Type: application/json", body made of the trimmed
name, email and message) exactly when the trimmed values pass the three checks
(all non-empty, email accepted by the pattern, message of length at least 10);
on every other input no request is issued. -/
theorem submit_posts_iff_checks_pass (net : Request → Exchange) (w : World) :
    ((onSubmit net w).requests =
        w.requests ++
          [{ url := utf16 "http://localhost:5000/inscription"
             method := utf16 "POST"
             headers := [(utf16 "Content-Type", utf16 "application/json")]
             body := { name := trim w.form.name.value
                       email := trim w.form.email.value
                       message := trim w.form.message.value } }] ↔
      (trim w.form.name.value ≠ [] ∧ trim w.form.email.value ≠ [] ∧
        trim w.form.message.value ≠ [] ∧
        test emailRegex (trim w.form.email.value) = true ∧
        10 ≤ (trim w.form.message.value).length)) ∧
    (¬ (trim w.form.name.value ≠ [] ∧ trim w.form.email.value ≠ [] ∧
        trim w.form.message.value ≠ [] ∧
        test emailRegex (trim w.form.email.value) = true ∧
        10 ≤ (trim w.form.message.value).length) →
      (onSubmit net w).requests = w.requests) := by
  have hblocked : ¬ Valid w → (onSubmit net w).requests = w.requests := by
    intro hv
    obtain ⟨msg, h⟩ := onSubmit_of_not_valid net w hv
    rw [h]
    rfl
  refine ⟨⟨fun h => ?_, fun hv => onSubmit_valid_requests net w hv⟩, hblocked⟩
  by_contra hv
  rw [hblocked hv] at h
  simpa using congrArg List.length h

/-- C2: when name, email or message is empty after trimming, the handler shows
"Veuillez remplir tous les champs." with the error style and makes no network
call, whatever the other fields contain. -/
theorem empty_field_blocks_submission (net : Request → Exchange) (w : World)
    (h : trim w.form.name.value = [] ∨ trim w.form.email.value = [] ∨
      trim w.form.message.value = []) :
    (onSubmit net w).alertBox =
        { textContent := utf16 "Veuillez remplir tous les champs."
          className := utf16 "alert show err" } ∧
    (onSubmit net w).requests = w.requests ∧
    (onSubmit net w).form = w.form := by
  rw [onSubmit_of_empty net w h]
  exact ⟨by simp only [showAlert]; congr 1, rfl, rfl⟩

theorem empty_field_blocks_submission_witness :
    (onSubmit (fun _ => .parsed (sampleResponse (.bool true) (.str (utf16 "Thanks!"))))
        (samplePage "Bob" "  " "hello world")).alertBox =
        { textContent := utf16 "Veuillez remplir tous les champs."
          className := utf16 "alert show err" } ∧
    (onSubmit (fun _ => .parsed (sampleResponse (.bool true) (.str (utf16 "Thanks!"))))
        (samplePage "Bob" "  " "hello world")).requests = [] ∧
    (onSubmit (fun _ => .parsed (sampleResponse (.bool true) (.str (utf16 "Thanks!"))))
        (samplePage "Bob" "  " "hello world")).form =
      (samplePage "Bob" "  " "hello world").form :=
  empty_field_blocks_submission _ (samplePage "Bob" "  " "hello world") (by decide)

/-- C3, as stated, fails: the empty email does not match the pattern, and so
does "bob@@x", yet with an empty field the alert is the one of the empty-field
check, not "Adresse email invalide.". -/
theorem invalid_email_alert_counterexample :
    emailOk (trim (samplePage "Bob" "" "hello world").form.email.value) = false ∧
    (onSubmit (fun _ => .fetchRejected) (samplePage "Bob" "" "hello world")).alertBox.textContent
      = utf16 "Veuillez remplir tous les champs." ∧
    emailOk (trim (samplePage "" "bob@@x" "hello world").form.email.value) = false ∧
    (onSubmit (fun _ => .fetchRejected) (samplePage "" "bob@@x" "hello world")).alertBox.textContent
      = utf16 "Veuillez remplir tous les champs." ∧
    utf16 "Veuillez remplir tous les champs." ≠ utf16 "Adresse email invalide." := by
  decide

/-- C3, amended: for every trimmed email that the pattern rejects the
submission is blocked and no network call is made; the alert is "Adresse email
invalide." with the error style when name, email and message are all non-empty
after trimming, and the empty-field alert otherwise.  "bob@@x" fails the check
and "bob@x.com" passes it. -/
theorem invalid_email_blocks_submission (net : Request → Exchange) (w : World)
    (h : test emailRegex (trim w.form.email.value) = false) :
    (onSubmit net w).requests = w.requests ∧
    (onSubmit net w).form = w.form ∧
    (trim w.form.name.value ≠ [] ∧ trim w.form.email.value ≠ [] ∧
        trim w.form.message.value ≠ [] →
      (onSubmit net w).alertBox =
        { textContent := utf16 "Adresse email invalide."
          className := utf16 "alert show err" }) ∧
    (trim w.form.name.value = [] ∨ trim w.form.email.value = [] ∨
        trim w.form.message.value = [] →
      (onSubmit net w).alertBox =
        { textContent := utf16 "Veuillez remplir tous les champs."
          className := utf16 "alert show err" }) ∧
    test emailRegex (utf16 "bob@@x") = false ∧
    test emailRegex (utf16 "bob@x.com") = true := by
  have hv : ¬ Valid w := fun hv => by
    have := hv.2.2.2.1
    unfold emailOk at this
    rw [h] at this
    cases this
  obtain ⟨msg, hmsg⟩ := onSubmit_of_not_valid net w hv
  refine ⟨by rw [hmsg]; rfl, by rw [hmsg]; rfl, ?_, ?_, by decide, by decide⟩
  · rintro ⟨hn, he, hm⟩
    rw [onSubmit_of_badEmail net w hn he hm h]
    simp only [showAlert]
    congr 1
  · intro h0
    rw [onSubmit_of_empty net w h0]
    simp only [showAlert]
    congr 1

theorem invalid_email_blocks_submission_witness :
    (onSubmit (fun _ => .jsonRejected) (samplePage "Bob" "bob@@x" "hello world")).requests = [] ∧
    (onSubmit (fun _ => .jsonRejected) (samplePage "Bob" "bob@@x" "hello world")).alertBox =
      { textContent := utf16 "Adresse email invalide."
        className := utf16 "alert show err" } :=
  have h := invalid_email_blocks_submission (fun _ => .jsonRejected)
    (samplePage "Bob" "bob@@x" "hello world") (by decide)
  ⟨h.1, h.2.2.1 (by decide)⟩

/-- C4, as stated, fails: a message of white space only has trimmed length 0,
below 10, and the alert is the one of the empty-field check, not "Message trop
court (minimum 10 caractères).". -/
theorem short_message_alert_counterexample :
    (trim (samplePage "Bob" "bob@x.com" "   ").form.message.value).length < 10 ∧
    (onSubmit (fun _ => .fetchRejected) (samplePage "Bob" "bob@x.com" "   ")).alertBox.textContent
      = utf16 "Veuillez remplir tous les champs." ∧
    utf16 "Veuillez remplir tous les champs." ≠
      utf16 "Message trop court (minimum 10 caractères)." := by
  decide

/-- C4, amended: for every message of trimmed length below 10 the submission
is blocked; the alert is "Message trop court (minimum 10 caractères)." with
the error style when the three fields are non-empty after trimming and the
email matches the pattern.  "hi" has length 2 and is blocked, "hello world"
has length 11 and passes the length check. -/
theorem short_message_blocks_submission (net : Request → Exchange) (w : World)
    (h : (trim w.form.message.value).length < 10) :
    (onSubmit net w).requests = w.requests ∧
    (onSubmit net w).form = w.form ∧
    (trim w.form.name.value ≠ [] ∧ trim w.form.email.value ≠ [] ∧
        trim w.form.message.value ≠ [] ∧
        test emailRegex (trim w.form.email.value) = true →
      (onSubmit net w).alertBox =
        { textContent := utf16 "Message trop court (minimum 10 caractères)."
          className := utf16 "alert show err" }) ∧
    (trim (utf16 "hi")).length = 2 ∧
    (onSubmit net (samplePage "Bob" "bob@x.com" "hi")).requests = [] ∧
    (onSubmit net (samplePage "Bob" "bob@x.com" "hi")).alertBox.textContent =
      utf16 "Message trop court (minimum 10 caractères)." ∧
    (trim (utf16 "hello world")).length = 11 ∧
    Valid (samplePage "Bob" "bob@x.com" "hello world") := by
  have hv : ¬ Valid w := fun hv => by
    have := hv.2.2.2.2
    omega
  obtain ⟨msg, hmsg⟩ := onSubmit_of_not_valid net w hv
  have hhi := onSubmit_of_short net (samplePage "Bob" "bob@x.com" "hi")
    (by decide) (by decide) (by decide) (by decide) (by decide)
  refine ⟨by rw [hmsg]; rfl, by rw [hmsg]; rfl, ?_, by decide, by rw [hhi]; rfl,
    by rw [hhi]; rfl, by decide, by decide⟩
  rintro ⟨hn, he, hm, hok⟩
  rw [onSubmit_of_short net w hn he hm hok h]
  simp only [showAlert]
  congr 1

theorem short_message_blocks_submission_witness :
    (onSubmit (fun _ => .jsonRejected) (samplePage "Bob" "bob@x.com" " too short ")).requests
      = [] ∧
    (onSubmit (fun _ => .jsonRejected) (samplePage "Bob" "bob@x.com" " too short ")).alertBox =
      { textContent := utf16 "Message trop court (minimum 10 caractères)."
        className := utf16 "alert show err" } :=
  have h := short_message_blocks_submission (fun _ => .jsonRejected)
    (samplePage "Bob" "bob@x.com" " too short ") (by decide)
  ⟨h.1, h.2.2.1 (by decide)⟩

/-- C5: the checks run in the order empty field, email pattern, message length
and stop at the first failure: a blocked submission is exactly one call of
`showAlert`, with the message of the first failing check, whatever the later
checks would have found. -/
theorem validation_stops_at_first_failure (net : Request → Exchange) (w : World) :
    (trim w.form.name.value = [] ∨ trim w.form.email.value = [] ∨
        trim w.form.message.value = [] →
      onSubmit net w =
        showAlert (utf16 "Veuillez remplir tous les champs.") (utf16 "err") w ∧
      (onSubmit net w).alerts =
        w.alerts ++ [(utf16 "Veuillez remplir tous les champs.", utf16 "err")]) ∧
    (trim w.form.name.value ≠ [] ∧ trim w.form.email.value ≠ [] ∧
        trim w.form.message.value ≠ [] ∧
        test emailRegex (trim w.form.email.value) = false →
      onSubmit net w = showAlert (utf16 "Adresse email invalide.") (utf16 "err") w ∧
      (onSubmit net w).alerts =
        w.alerts ++ [(utf16 "Adresse email invalide.", utf16 "err")]) ∧
    (trim w.form.name.value ≠ [] ∧ trim w.form.email.value ≠ [] ∧
        trim w.form.message.value ≠ [] ∧
        test emailRegex (trim w.form.email.value) = true ∧
        (trim w.form.message.value).length < 10 →
      onSubmit net w =
        showAlert (utf16 "Message trop court (minimum 10 caractères).") (utf16 "err") w ∧
      (onSubmit net w).alerts =
        w.alerts ++ [(utf16 "Message trop court (minimum 10 caractères).", utf16 "err")]) ∧
    ((onSubmit net w).requests = w.requests →
      (onSubmit net w).alerts.length = w.alerts.length + 1) := by
  refine ⟨fun h => ?_, fun h => ?_, fun h => ?_, fun h => ?_⟩
  · rw [onSubmit_of_empty net w h]
    exact ⟨rfl, rfl⟩
  · rw [onSubmit_of_badEmail net w h.1 h.2.1 h.2.2.1 h.2.2.2]
    exact ⟨rfl, rfl⟩
  · rw [onSubmit_of_short net w h.1 h.2.1 h.2.2.1 h.2.2.2.1 h.2.2.2.2]
    exact ⟨rfl, rfl⟩
  · have hv : ¬ Valid w := fun hv => by
      rw [onSubmit_valid_requests net w hv] at h
      simpa using congrArg List.length h
    obtain ⟨msg, hmsg⟩ := onSubmit_of_not_valid net w hv
    rw [hmsg]
    simp [showAlert]

/-- C6, as stated, fails: for the parsed response
`{"success": true, "message": {"toString": null}}` the success indicator is
truthy, the concatenation of line 42 throws, and the handler shows the
connection error with the error style and leaves the form as it is. -/
theorem success_response_counterexample :
    Valid (samplePage "Bob" "bob@x.com" "hello world") ∧
    (getProp (sampleResponse (.bool true) noToString) (utf16 "success")).map truthy
      = some true ∧
    (onSubmit (fun _ => .parsed (sampleResponse (.bool true) noToString))
        (samplePage "Bob" "bob@x.com" "hello world")).alertBox =
      { textContent := utf16 "❌ Erreur de connexion au serveur."
        className := utf16 "alert show err" } ∧
    (onSubmit (fun _ => .parsed (sampleResponse (.bool true) noToString))
        (samplePage "Bob" "bob@x.com" "hello world")).form.name.value = utf16 "Bob" := by
  decide

/-- C6, amended: for every valid input and every parsed response whose success
indicator is truthy and whose message converts to a string, the handler shows
"✅ " followed by that string with the class "alert show ok" and resets every
form field to its default value, the empty string when the markup gives
none.  Every string message converts to itself. -/
theorem success_response_displayed (net : Request → Exchange) (w : World)
    (result success message : JSValue) (text : JSString)
    (hv : Valid w) (hnet : net (requestOf w) = .parsed result)
    (hs : getProp result (utf16 "success") = some success) (ht : truthy success = true)
    (hm : getProp result (utf16 "message") = some message)
    (htext : toStr message = some text) :
    (onSubmit net w).alertBox =
      { textContent := utf16 "✅ " ++ text, className := utf16 "alert show ok" } ∧
    (onSubmit net w).alerts = w.alerts ++ [(utf16 "✅ " ++ text, utf16 "ok")] ∧
    (onSubmit net w).form.name.value = w.form.name.defaultValue ∧
    (onSubmit net w).form.email.value = w.form.email.defaultValue ∧
    (onSubmit net w).form.message.value = w.form.message.defaultValue ∧
    (w.form.name.defaultValue = [] ∧ w.form.email.defaultValue = [] ∧
        w.form.message.defaultValue = [] →
      (onSubmit net w).form.name.value = [] ∧ (onSubmit net w).form.email.value = [] ∧
      (onSubmit net w).form.message.value = []) ∧
    (∀ s : JSString, toStr (.str s) = some s) := by
  have h : onSubmit net w =
      { showAlert (utf16 "✅ " ++ text) (utf16 "ok") (afterSend w) with
        form := (afterSend w).form.reset } := by
    rw [onSubmit_of_valid net w hv, hnet]
    simp [tryBody, hs, ht, hm, htext, showAlert]
  rw [h]
  refine ⟨by simp only [showAlert]; congr 1, rfl, rfl, rfl, rfl, ?_, fun _ => rfl⟩
  rintro ⟨h1, h2, h3⟩
  exact ⟨h1, h2, h3⟩

theorem success_response_displayed_witness :
    (onSubmit (fun _ => .parsed (sampleResponse (.bool true) (.str (utf16 "Thanks!"))))
        (samplePage " Bob" "bob@x.com " "hello world")).alertBox =
      { textContent := utf16 "✅ Thanks!", className := utf16 "alert show ok" } ∧
    (onSubmit (fun _ => .parsed (sampleResponse (.bool true) (.str (utf16 "Thanks!"))))
        (samplePage " Bob" "bob@x.com " "hello world")).form.name.value = [] :=
  have h := success_response_displayed
    (fun _ => .parsed (sampleResponse (.bool true) (.str (utf16 "Thanks!"))))
    (samplePage " Bob" "bob@x.com " "hello world")
    (sampleResponse (.bool true) (.str (utf16 "Thanks!"))) (.bool true)
    (.str (utf16 "Thanks!")) (utf16 "Thanks!") (by decide) rfl rfl rfl rfl rfl
  ⟨h.1, h.2.2.1⟩

/-- C7, as stated, fails: for the parsed response
`{"success": false, "message": {"toString": null}}` the success indicator is
falsy, the concatenation of line 45 throws, and the text shown is the fixed
connection error, not the response's message. -/
theorem failure_response_counterexample :
    Valid (samplePage "Bob" "bob@x.com" "hello world") ∧
    (getProp (sampleResponse (.bool false) noToString) (utf16 "success")).map truthy
      = some false ∧
    ((getProp (sampleResponse (.bool false) noToString) (utf16 "message")).bind toStr)
      = none ∧
    (onSubmit (fun _ => .parsed (sampleResponse (.bool false) noToString))
        (samplePage "Bob" "bob@x.com" "hello world")).alertBox.textContent =
      utf16 "❌ Erreur de connexion au serveur." := by
  decide

/-- C7, amended: for every valid input and every parsed response whose success
indicator is falsy and whose message converts to a string, the handler shows
"❌ " followed by that string with the class "alert show err", and the form
fields keep the values the user entered.  Every string message converts to
itself. -/
theorem failure_response_displayed (net : Request → Exchange) (w : World)
    (result success message : JSValue) (text : JSString)
    (hv : Valid w) (hnet : net (requestOf w) = .parsed result)
    (hs : getProp result (utf16 "success") = some success) (ht : truthy success = false)
    (hm : getProp result (utf16 "message") = some message)
    (htext : toStr message = some text) :
    (onSubmit net w).alertBox =
      { textContent := utf16 "❌ " ++ text, className := utf16 "alert show err" } ∧
    (onSubmit net w).alerts = w.alerts ++ [(utf16 "❌ " ++ text, utf16 "err")] ∧
    (onSubmit net w).form = w.form ∧
    (∀ s : JSString, toStr (.str s) = some s) := by
  have h : onSubmit net w =
      showAlert (utf16 "❌ " ++ text) (utf16 "err") (afterSend w) := by
    rw [onSubmit_of_valid net w hv, hnet]
    simp [tryBody, hs, ht, hm, htext]
  rw [h]
  exact ⟨by simp only [showAlert]; congr 1, rfl, rfl, fun _ => rfl⟩

theorem failure_response_displayed_witness :
    (onSubmit (fun _ => .parsed (sampleResponse (.bool false) (.str (utf16 "Duplicate email"))))
        (samplePage "Bob" "bob@x.com" "hello world")).alertBox =
      { textContent := utf16 "❌ Duplicate email", className := utf16 "alert show err" } ∧
    (onSubmit (fun _ => .parsed (sampleResponse (.bool false) (.str (utf16 "Duplicate email"))))
        (samplePage "Bob" "bob@x.com" "hello world")).form =
      (samplePage "Bob" "bob@x.com" "hello world").form :=
  have h := failure_response_displayed
    (fun _ => .parsed (sampleResponse (.bool false) (.str (utf16 "Duplicate email"))))
    (samplePage "Bob" "bob@x.com" "hello world")
    (sampleResponse (.bool false) (.str (utf16 "Duplicate email"))) (.bool false)
    (.str (utf16 "Duplicate email")) (utf16 "Duplicate email") (by decide) rfl rfl rfl rfl rfl
  ⟨h.1, h.2.2.1⟩

/-- C8: for every valid input, when the request throws or the body is not
JSON, the text shown is exactly "❌ Erreur de connexion au serveur." with the
error style, the same for both causes, and the form fields keep their
values. -/
theorem network_failure_generic_alert (net : Request → Exchange) (w : World)
    (hv : Valid w)
    (hx : net (requestOf w) = .fetchRejected ∨ net (requestOf w) = .jsonRejected) :
    (onSubmit net w).alertBox =
      { textContent := utf16 "❌ Erreur de connexion au serveur."
        className := utf16 "alert show err" } ∧
    (onSubmit net w).alerts =
      w.alerts ++ [(utf16 "❌ Erreur de connexion au serveur.", utf16 "err")] ∧
    (onSubmit net w).form = w.form := by
  have h : onSubmit net w =
      showAlert (utf16 "❌ Erreur de connexion au serveur.") (utf16 "err") (afterSend w) := by
    rw [onSubmit_of_valid net w hv]
    rcases hx with hx | hx <;> rw [hx] <;> rfl
  rw [h]
  exact ⟨by simp only [showAlert]; congr 1, rfl, rfl⟩

theorem network_failure_generic_alert_witness :
    (onSubmit (fun _ => .jsonRejected) (samplePage "Bob" "bob@x.com" "hello world")).alertBox =
      { textContent := utf16 "❌ Erreur de connexion au serveur."
        className := utf16 "alert show err" } ∧
    (onSubmit (fun _ => .jsonRejected) (samplePage "Bob" "bob@x.com" "hello world")).form =
      (samplePage "Bob" "bob@x.com" "hello world").form :=
  have h := network_failure_generic_alert (fun _ => .jsonRejected)
    (samplePage "Bob" "bob@x.com" "hello world") (by decide) (Or.inr rfl)
  ⟨h.1, h.2.2⟩

/-! ## The active link marker and the email pattern -/

theorem split_ne_nil (sep : CodeUnit) (s : JSString) : split sep s ≠ [] := by
  cases s with
  | nil => simp [split]
  | cons c s =>
    unfold split
    split
    · simp
    · split <;> simp

theorem split_cons_sep (sep : CodeUnit) (s : JSString) :
    split sep (sep :: s) = [] :: split sep s := by
  simp [split]

theorem split_cons_other (sep c : CodeUnit) (s seg : JSString) (segs : List JSString)
    (hc : c ≠ sep) (h : split sep s = seg :: segs) :
    split sep (c :: s) = (c :: seg) :: segs := by
  simp [split, hc, h]

theorem split_append_sep (sep : CodeUnit) (x y : JSString) :
    split sep (x ++ sep :: y) = split sep x ++ split sep y := by
  induction x with
  | nil => simp [split]
  | cons c x ih =>
    by_cases hc : c = sep
    · subst hc
      rw [List.cons_append, split_cons_sep, split_cons_sep, ih]
      rfl
    · have hx := split_ne_nil sep x
      cases hsx : split sep x with
      | nil => exact absurd hsx hx
      | cons seg segs =>
        rw [List.cons_append, split_cons_other sep c _ seg (segs ++ split sep y) hc
          (by rw [ih, hsx]; rfl), split_cons_other sep c _ seg segs hc hsx]
        rfl

theorem split_of_not_mem (sep : CodeUnit) (s : JSString) (h : sep ∉ s) :
    split sep s = [s] := by
  induction s with
  | nil => rfl
  | cons c s ih =>
    have hc : c ≠ sep := fun e => h (by simp [e])
    have hs : sep ∉ s := fun e => h (List.mem_cons_of_mem _ e)
    simp only [split, beq_iff_eq, hc, if_false, ih hs]

theorem currentFile_of_not_mem (p : JSString) (h : 0x2F ∉ p) :
    currentFile p = if p = [] then utf16 "index.html" else p := by
  unfold currentFile
  rw [split_of_not_mem _ _ h]
  cases p <;> simp

theorem currentFile_append (dir seg : JSString) (h : 0x2F ∉ seg) :
    currentFile (dir ++ 0x2F :: seg) = if seg = [] then utf16 "index.html" else seg := by
  unfold currentFile
  rw [split_append_sep, split_of_not_mem _ _ h, List.getLast?_append]
  cases seg <;> simp

/-- C9: `markActiveNav` takes as current file name the last segment of the
path between slashes, or "index.html" when that segment is empty, and adds the
class `active` to the links whose `href` is that name and to no other link; a
path ending in the segment "about.html" marks the links to "about.html", and
the empty path and the root path mark the links to "index.html". -/
theorem markActiveNav_marks_current (pathname : JSString) (links : List Link) :
    (∀ dir seg : JSString, 0x2F ∉ seg →
      currentFile (dir ++ 0x2F :: seg) = if seg = [] then utf16 "index.html" else seg) ∧
    (0x2F ∉ pathname →
      currentFile pathname = if pathname = [] then utf16 "index.html" else pathname) ∧
    (markActiveNav pathname links).length = links.length ∧
    (∀ (i : Nat) (a : Link), links[i]? = some a →
      ∃ b, (markActiveNav pathname links)[i]? = some b ∧ b.href = a.href ∧
        (a.href = some (currentFile pathname) →
          utf16 "active" ∈ b.classList ∧
          ∀ t, t ∈ b.classList ↔ t = utf16 "active" ∨ t ∈ a.classList) ∧
        (a.href ≠ some (currentFile pathname) → b = a)) ∧
    (∀ dir : JSString, currentFile (dir ++ utf16 "/about.html") = utf16 "about.html") ∧
    currentFile [] = utf16 "index.html" ∧
    currentFile (utf16 "/") = utf16 "index.html" := by
  refine ⟨fun dir seg h => currentFile_append dir seg h,
    fun h => currentFile_of_not_mem pathname h, by simp [markActiveNav], ?_, ?_,
    by decide, by decide⟩
  · intro i a hi
    by_cases h : a.href = some (currentFile pathname)
    · refine ⟨{ a with classList := classListAdd a.classList (utf16 "active") }, ?_, rfl,
        fun _ => ?_, fun hne => absurd h hne⟩
      · simp [markActiveNav, hi, h]
      · have hmem : ∀ t, t ∈ classListAdd a.classList (utf16 "active") ↔
            t = utf16 "active" ∨ t ∈ a.classList := by
          intro t
          unfold classListAdd
          split
          · constructor
            · exact Or.inr
            · rintro (rfl | ht)
              · assumption
              · exact ht
          · simp [or_comm]
        exact ⟨(hmem _).2 (Or.inl rfl), hmem⟩
    · exact ⟨a, by simp [markActiveNav, hi, h], rfl, fun hh => absurd hh h, fun _ => rfl⟩
  · intro dir
    have h := currentFile_append dir (utf16 "about.html") (by decide)
    have e : utf16 "/about.html" = 0x2F :: utf16 "about.html" := by decide
    rw [e, h]
    decide

/-- C10: the pattern accepts a string exactly when it has no white space, has
exactly one `@`, has a non-empty part before the `@`, and the part after the
`@` has a `.` that is neither its first nor its last character; "a@b..c" and
"a.b@c.d.e" are accepted, "a@.b", "a@b." and "a@b" are rejected. -/
theorem emailOk_iff_one_at_inner_dot (s : JSString) :
    (test emailRegex s = true ↔
      (∀ c ∈ s, isWhiteSpace c = false) ∧ s.count 0x40 = 1 ∧
      ∃ l d : JSString, s = l ++ 0x40 :: d ∧ l ≠ [] ∧
        ∃ i, 0 < i ∧ i + 1 < d.length ∧ d[i]? = some 0x2E) ∧
    test emailRegex (utf16 "a@b..c") = true ∧
    test emailRegex (utf16 "a.b@c.d.e") = true ∧
    test emailRegex (utf16 "a@.b") = false ∧
    test emailRegex (utf16 "a@b.") = false ∧
    test emailRegex (utf16 "a@b") = false := by
  refine ⟨?_, by decide, by decide, by decide, by decide, by decide⟩
  have hshape := emailOk_iff_shape s
  unfold emailOk at hshape
  rw [hshape]
  constructor
  · rintro ⟨x, y, z, rfl, hx, hy, hz, hxa, hya, hza⟩
    have cx : List.count 0x40 x = 0 := List.count_eq_zero.2 fun h => (hxa _ h).2 rfl
    have cy : List.count 0x40 y = 0 := List.count_eq_zero.2 fun h => (hya _ h).2 rfl
    have cz : List.count 0x40 z = 0 := List.count_eq_zero.2 fun h => (hza _ h).2 rfl
    refine ⟨?_, ?_, x, y ++ 0x2E :: z, rfl, hx, y.length, List.length_pos.2 hy, ?_, ?_⟩
    · intro c hc
      simp only [List.mem_append, List.mem_cons] at hc
      rcases hc with hc | rfl | hc | rfl | hc
      · exact (hxa c hc).1
      · decide
      · exact (hya c hc).1
      · decide
      · exact (hza c hc).1
    · simp [List.count_append, List.count_cons, cx, cy, cz]
    · have := List.length_pos.2 hz
      simp only [List.length_append, List.length_cons]
      omega
    · rw [List.getElem?_append_right (Nat.le_refl _)]
      simp
  · rintro ⟨hws, hcount, l, d, rfl, hl, i, hi0, hi1, hget⟩
    simp only [List.count_append, List.count_cons, beq_self_eq_true, if_true] at hcount
    have cl : List.count 0x40 l = 0 := by omega
    have cd : List.count 0x40 d = 0 := by omega
    have nl : (0x40 : CodeUnit) ∉ l := List.count_eq_zero.1 cl
    have nd : (0x40 : CodeUnit) ∉ d := List.count_eq_zero.1 cd
    have hlt : i < d.length := by omega
    have hdi : d[i] = 0x2E := by
      rw [List.getElem?_eq_getElem hlt] at hget
      exact Option.some.inj hget
    have hd : d = d.take i ++ 0x2E :: d.drop (i + 1) := by
      conv_lhs => rw [← List.take_append_drop i d, List.drop_eq_getElem_cons hlt, hdi]
    refine ⟨l, d.take i, d.drop (i + 1), by rw [← hd], hl, ?_, ?_, ?_, ?_, ?_⟩
    · intro h
      have hlen : (d.take i).length = i := by
        rw [List.length_take]
        omega
      rw [h] at hlen
      simp at hlen
      omega
    · intro h
      have hlen : (d.drop (i + 1)).length = d.length - (i + 1) := List.length_drop _ _
      rw [h] at hlen
      simp at hlen
      omega
    · intro c hc
      exact ⟨hws c (by simp [hc]), fun e => nl (e ▸ hc)⟩
    · intro c hc
      have hcd := List.mem_of_mem_take hc
      exact ⟨hws c (by simp [hcd]), fun e => nd (e ▸ hcd)⟩
    · intro c hc
      have hcd := List.mem_of_mem_drop hc
      exact ⟨hws c (by simp [hcd]), fun e => nd (e ▸ hcd)⟩

end Main
